import Mathlib

/-
Shallow embedding of pkg/provider/redis.go (package provider) of
natomalabs/slack-mcp-server, together with its unit tests in
pkg/provider/redis_test.go.  The accessor stores two collections, users and
channels, in a key-value store under keys derived from an immutable scope
(instanceID, userID).  Serialization goes through encoding/json; the store is
modelled as an association list from keys to stored payloads, and the single
SET command a write issues is reified so that its expiration argument is
visible.  Construction reads three environment settings and is modelled up to
the liveness probe, which is a network effect outside the embedding.
-/

namespace SlackCache

/-- Json values: the interchange format produced and consumed by
encoding/json, at the level of parsed values. -/
inductive Json where
  | null : Json
  | bool (b : Bool) : Json
  | num (n : Int) : Json
  | str (s : String) : Json
  | arr (elems : List Json) : Json
  | obj (fields : List (String × Json)) : Json

/-- GoSlice models a Go slice, which is either nil or a (possibly empty)
sequence of elements; encoding/json marshals a nil slice as the JSON token
null and a non-nil slice as a JSON array. -/
abbrev GoSlice (α : Type) := Option (List α)

/-- UserProfile models the nested profile block of a user record
(slack.UserProfile as used by this component): it carries at least a
real-name field, other fields being opaque to the accessor. -/
structure UserProfile where
  realName : String
deriving DecidableEq, Repr

/-- User models a directory user record (slack.User as used by this
component): identifier, display name, and the nested profile block; other
fields are opaque to the accessor and passed through by serialization. -/
structure User where
  id : String
  name : String
  profile : UserProfile
deriving DecidableEq, Repr

/-- Modelled from the spec: the Channel record type of package provider is
declared outside the given sources; its fields follow the spec (identifier,
name, topic, purpose, member count, and three boolean visibility flags) and
match the fields exercised by redis_test.go. -/
structure Channel where
  id : String
  name : String
  topic : String
  purpose : String
  memberCount : Int
  isIM : Bool
  isMpIM : Bool
  isPrivate : Bool
deriving DecidableEq, Repr

/-- encodeUser gives the JSON object json.Marshal produces for one user
record. -/
def encodeUser (u : User) : Json :=
  .obj [("id", .str u.id), ("name", .str u.name),
        ("profile", .obj [("real_name", .str u.profile.realName)])]

/-- decodeUser gives the user record json.Unmarshal recovers from a payload,
failing on any payload that is not a user object. -/
def decodeUser (j : Json) : Option User :=
  match j with
  | .obj [("id", .str i), ("name", .str n),
          ("profile", .obj [("real_name", .str rn)])] =>
      some { id := i, name := n, profile := { realName := rn } }
  | _ => none

/-- encodeChannel gives the JSON object json.Marshal produces for one channel
record. -/
def encodeChannel (c : Channel) : Json :=
  .obj [("id", .str c.id), ("name", .str c.name), ("topic", .str c.topic),
        ("purpose", .str c.purpose), ("member_count", .num c.memberCount),
        ("is_im", .bool c.isIM), ("is_mpim", .bool c.isMpIM),
        ("is_private", .bool c.isPrivate)]

/-- decodeChannel gives the channel record json.Unmarshal recovers from a
payload, failing on any payload that is not a channel object. -/
def decodeChannel (j : Json) : Option Channel :=
  match j with
  | .obj [("id", .str i), ("name", .str n), ("topic", .str t),
          ("purpose", .str p), ("member_count", .num m),
          ("is_im", .bool im), ("is_mpim", .bool mp),
          ("is_private", .bool pr)] =>
      some { id := i, name := n, topic := t, purpose := p, memberCount := m,
             isIM := im, isMpIM := mp, isPrivate := pr }
  | _ => none

/-- decodeList decodes every element of a JSON array, failing if any element
fails. -/
def decodeList {α : Type} (dec : Json → Option α) : List Json → Option (List α)
  | [] => some []
  | j :: rest =>
    match dec j with
    | none => none
    | some a =>
      match decodeList dec rest with
      | none => none
      | some as => some (a :: as)

/-- encodeUsers is json.Marshal on a []slack.User value: a nil slice becomes
the JSON token null, a non-nil slice becomes a JSON array. -/
def encodeUsers (users : GoSlice User) : Json :=
  match users with
  | none => .null
  | some l => .arr (l.map encodeUser)

/-- decodeUsers is json.Unmarshal into a []slack.User variable: the token
null leaves the slice nil, an array of user objects yields the slice, and
anything else is a decode failure. -/
def decodeUsers (j : Json) : Option (GoSlice User) :=
  match j with
  | .null => some none
  | .arr elems =>
    match decodeList decodeUser elems with
    | none => none
    | some l => some (some l)
  | _ => none

/-- encodeChannels is json.Marshal on a []Channel value. -/
def encodeChannels (channels : GoSlice Channel) : Json :=
  match channels with
  | none => .null
  | some l => .arr (l.map encodeChannel)

/-- decodeChannels is json.Unmarshal into a []Channel variable. -/
def decodeChannels (j : Json) : Option (GoSlice Channel) :=
  match j with
  | .null => some none
  | .arr elems =>
    match decodeList decodeChannel elems with
    | none => none
    | some l => some (some l)
  | _ => none

/-- Store models the key-value store contents as an association list; the
first binding of a key is its current value. -/
abbrev Store := List (String × Json)

/-- Store.find is the store GET lookup: the current value bound to a key, or
none when the store reports the key missing. -/
def Store.find : Store → String → Option Json
  | [], _ => none
  | (k, v) :: rest, key => if k = key then some v else Store.find rest key

/-- SetCmd reifies the single SET command a write issues: the derived key,
the serialized payload, and the expiration handed to the store client (a Go
time.Duration counted in nanoseconds). -/
structure SetCmd where
  key : String
  value : Json
  ttl : Int

/-- Store.applySet is the store-side effect of a SET command: the key is now
bound to the new value, shadowing any prior binding. -/
def Store.applySet (s : Store) (cmd : SetCmd) : Store :=
  (cmd.key, cmd.value) :: s

/-- Hour is Go time.Hour as an integer count of nanoseconds. -/
def Hour : Int := 3600 * 1000000000

/-- CacheTTL is the default TTL for cached data (6 hours), from the constant
block of redis.go. -/
def CacheTTL : Int := 6 * Hour

/-- RedisClient models the accessor state visible to the cache contract: the
immutable scope (instanceID, userID).  The store handle is passed explicitly
as a Store argument and the logger carries no cache-visible state. -/
structure RedisClient where
  instanceID : String
  userID : String
deriving DecidableEq, Repr

/-- getSlackKey generates a standardized Redis key with the slack: prefix
using the INSTANCE_ID/USER_ID namespace, translating
fmt.Sprintf applied to the format slack:%s/%s:%s. -/
def RedisClient.getSlackKey (r : RedisClient) (resource : String) : String :=
  "slack:" ++ r.instanceID ++ "/" ++ r.userID ++ ":" ++ resource

/-- SpecKey restates the key-derivation formula in the words of the spec, for
comparison with getSlackKey. -/
def SpecKey (instanceID userID kind : String) : String :=
  "slack:" ++ instanceID ++ "/" ++ userID ++ ":" ++ kind

/-- SetUsersCmd is the SET command SetUsers issues: the users key for the
scope, the marshalled collection, and the fixed TTL. -/
def RedisClient.SetUsersCmd (r : RedisClient) (users : GoSlice User) : SetCmd :=
  { key := r.getSlackKey "users", value := encodeUsers users, ttl := CacheTTL }

/-- SetUsers applied to a store: the store after the SET command of SetUsers
lands. -/
def RedisClient.SetUsers (r : RedisClient) (users : GoSlice User) (s : Store) : Store :=
  s.applySet (r.SetUsersCmd users)

/-- SetChannelsCmd is the SET command SetChannels issues. -/
def RedisClient.SetChannelsCmd (r : RedisClient) (channels : GoSlice Channel) : SetCmd :=
  { key := r.getSlackKey "channels", value := encodeChannels channels,
    ttl := CacheTTL }

/-- SetChannels applied to a store. -/
def RedisClient.SetChannels (r : RedisClient) (channels : GoSlice Channel) (s : Store) : Store :=
  s.applySet (r.SetChannelsCmd channels)

/-- GetResp is the outcome of the store GET call inside a Get operation:
redis.Nil (key missing), a stored value, or a store-side failure such as a
network fault. -/
inductive GetResp where
  | missing : GetResp
  | found (value : Json) : GetResp
  | storeFail (msg : String) : GetResp

/-- GetUsersFromResp translates the body of GetUsers as a function of the
store response: redis.Nil yields a nil slice and nil error (the absent
outcome), any other store error is returned as an error, and otherwise the
payload is unmarshalled, a decode failure again being an error. -/
def GetUsersFromResp (resp : GetResp) : Except String (GoSlice User) :=
  match resp with
  | .missing => .ok none
  | .storeFail m => .error ("failed to get users from Redis: " ++ m)
  | .found j =>
    match decodeUsers j with
    | none => .error "failed to unmarshal users"
    | some users => .ok users

/-- GetChannelsFromResp translates the body of GetChannels as a function of
the store response. -/
def GetChannelsFromResp (resp : GetResp) : Except String (GoSlice Channel) :=
  match resp with
  | .missing => .ok none
  | .storeFail m => .error ("failed to get channels from Redis: " ++ m)
  | .found j =>
    match decodeChannels j with
    | none => .error "failed to unmarshal channels"
    | some channels => .ok channels

/-- Store.getResp is the response of a healthy deterministic store: the
missing indicator when the key is unbound, the stored value otherwise. -/
def Store.getResp (s : Store) (key : String) : GetResp :=
  match s.find key with
  | none => .missing
  | some j => .found j

/-- GetUsers against a healthy deterministic store. -/
def RedisClient.GetUsers (r : RedisClient) (s : Store) : Except String (GoSlice User) :=
  GetUsersFromResp (s.getResp (r.getSlackKey "users"))

/-- GetChannels against a healthy deterministic store. -/
def RedisClient.GetChannels (r : RedisClient) (s : Store) : Except String (GoSlice Channel) :=
  GetChannelsFromResp (s.getResp (r.getSlackKey "channels"))

/-- Env gives the values os.Getenv returns for the three settings read at
construction; Getenv returns the empty string when a variable is absent. -/
structure Env where
  redisAddr : String
  redisPassword : String
  redisDb : String
deriving DecidableEq, Repr

/-- RedisConfig is the connection configuration handed to redis.NewClient. -/
structure RedisConfig where
  addr : String
  password : String
  db : Int
deriving DecidableEq, Repr

/-- digitVal is the numeric value of a decimal digit character. -/
def digitVal (c : Char) : Option Nat :=
  if '0' ≤ c ∧ c ≤ '9' then some (c.toNat - '0'.toNat) else none

/-- parseDigits folds decimal digits into a number, failing on any non-digit
character. -/
def parseDigits : List Char → Nat → Option Nat
  | [], acc => some acc
  | c :: rest, acc =>
    match digitVal c with
    | none => none
    | some d => parseDigits rest (acc * 10 + d)

/-- Atoi models strconv.Atoi: an optional sign followed by at least one
decimal digit, rejecting syntax errors and values outside the 64-bit int
range. -/
def Atoi (s : String) : Except String Int :=
  match s.data with
  | [] => .error "invalid syntax"
  | c :: rest =>
    let signed : Bool × List Char :=
      if c = '-' then (true, rest)
      else if c = '+' then (false, rest)
      else (false, c :: rest)
    match signed with
    | (neg, digits) =>
      if digits = [] then .error "invalid syntax"
      else
        match parseDigits digits 0 with
        | none => .error "invalid syntax"
        | some n =>
          let v : Int := if neg then -(n : Int) else (n : Int)
          if -(2 ^ 63) ≤ v ∧ v < 2 ^ 63 then .ok v
          else .error "value out of range"

/-- NewRedisClient models construction up to the liveness check: the three
environment settings are read, the address defaults to localhost:6379 when
empty, the password is taken as is, and REDIS_DB defaults to 0 when empty
and is otherwise parsed with Atoi, a parse failure aborting construction.  A
returned configuration means construction proceeds to the Ping liveness
probe (a bounded network effect outside this embedding); a returned error is
the construction failure. -/
def NewRedisClient (env : Env) : Except String RedisConfig :=
  let addr := if env.redisAddr = "" then "localhost:6379" else env.redisAddr
  let password := env.redisPassword
  if env.redisDb = "" then .ok { addr := addr, password := password, db := 0 }
  else
    match Atoi env.redisDb with
    | .error e => .error ("invalid REDIS_DB value: " ++ e)
    | .ok db => .ok { addr := addr, password := password, db := db }

/-! Helper lemmas: serialization round trip and store behaviour. -/

theorem decodeUser_encodeUser (u : User) : decodeUser (encodeUser u) = some u := rfl

theorem decodeChannel_encodeChannel (c : Channel) :
    decodeChannel (encodeChannel c) = some c := rfl

theorem decodeList_map_encodeUser (l : List User) :
    decodeList decodeUser (l.map encodeUser) = some l := by
  induction l with
  | nil => rfl
  | cons x xs ih => simp [List.map, decodeList, decodeUser_encodeUser, ih]

theorem decodeList_map_encodeChannel (l : List Channel) :
    decodeList decodeChannel (l.map encodeChannel) = some l := by
  induction l with
  | nil => rfl
  | cons x xs ih => simp [List.map, decodeList, decodeChannel_encodeChannel, ih]

theorem decodeUsers_encodeUsers (us : GoSlice User) :
    decodeUsers (encodeUsers us) = some us := by
  cases us with
  | none => rfl
  | some l => simp [encodeUsers, decodeUsers, decodeList_map_encodeUser]

theorem decodeChannels_encodeChannels (cs : GoSlice Channel) :
    decodeChannels (encodeChannels cs) = some cs := by
  cases cs with
  | none => rfl
  | some l => simp [encodeChannels, decodeChannels, decodeList_map_encodeChannel]

theorem Store.find_applySet_same (s : Store) (cmd : SetCmd) :
    Store.find (s.applySet cmd) cmd.key = some cmd.value := by
  simp [Store.applySet, Store.find]

theorem Store.find_applySet_ne (s : Store) (cmd : SetCmd) (key : String)
    (h : cmd.key ≠ key) : Store.find (s.applySet cmd) key = Store.find s key := by
  simp [Store.applySet, Store.find, h]

theorem getUsers_setUsers_eq (r : RedisClient) (users : GoSlice User) (s : Store) :
    r.GetUsers (r.SetUsers users s) = .ok users := by
  simp [RedisClient.GetUsers, RedisClient.SetUsers, RedisClient.SetUsersCmd,
        Store.getResp, Store.applySet, Store.find, GetUsersFromResp,
        decodeUsers_encodeUsers]

theorem getChannels_setChannels_eq (r : RedisClient) (channels : GoSlice Channel)
    (s : Store) : r.GetChannels (r.SetChannels channels s) = .ok channels := by
  simp [RedisClient.GetChannels, RedisClient.SetChannels, RedisClient.SetChannelsCmd,
        Store.getResp, Store.applySet, Store.find, GetChannelsFromResp,
        decodeChannels_encodeChannels]

theorem usersKey_ne_channelsKey (r : RedisClient) :
    r.getSlackKey "users" ≠ r.getSlackKey "channels" := by
  intro h
  have h2 := congrArg String.data h
  simp only [RedisClient.getSlackKey, String.data_append] at h2
  exact absurd (List.append_cancel_left h2) (by decide)

/-! Claim theorems. -/

/-- C1: for every accessor the derived store key is exactly the string
slack: + instanceID + / + userID + : + kind, with kind the literal users or
channels; it agrees with the formula SpecKey stated by the spec, repeated
derivations agree, and the key depends on nothing besides the stored scope
and the kind. -/
theorem getSlackKey_matches_spec (r1 r2 : RedisClient) (kind : String)
    (hscope : r1.instanceID = r2.instanceID ∧ r1.userID = r2.userID) :
    r1.getSlackKey kind = SpecKey r1.instanceID r1.userID kind
    ∧ r1.getSlackKey "users"
        = "slack:" ++ r1.instanceID ++ "/" ++ r1.userID ++ ":" ++ "users"
    ∧ r1.getSlackKey "channels"
        = "slack:" ++ r1.instanceID ++ "/" ++ r1.userID ++ ":" ++ "channels"
    ∧ r1.getSlackKey kind = r2.getSlackKey kind := by
  obtain ⟨h1, h2⟩ := hscope
  exact ⟨rfl, rfl, rfl, by simp [RedisClient.getSlackKey, h1, h2]⟩

/-- Witness for C1 at the concrete scope used by the unit tests. -/
theorem getSlackKey_matches_spec_witness :
    RedisClient.getSlackKey { instanceID := "TEST123", userID := "U123456" } "users"
      = "slack:TEST123/U123456:users"
    ∧ RedisClient.getSlackKey { instanceID := "TEST123", userID := "U123456" } "users"
      = SpecKey "TEST123" "U123456" "users" := by
  have h := getSlackKey_matches_spec
    { instanceID := "TEST123", userID := "U123456" }
    { instanceID := "TEST123", userID := "U123456" } "users" ⟨rfl, rfl⟩
  exact ⟨by rw [h.2.1]; rfl, h.1⟩

/-- C3: for every scope and every collection of user records or channel
records, including nil and the empty sequence, a Set of the collection
followed by a Get on the same scope, with no intervening write, returns
exactly the collection that was written. -/
theorem set_get_roundTrip (r : RedisClient) (users : GoSlice User)
    (channels : GoSlice Channel) (s t : Store) :
    r.GetUsers (r.SetUsers users s) = .ok users
    ∧ r.GetChannels (r.SetChannels channels t) = .ok channels :=
  ⟨getUsers_setUsers_eq r users s, getChannels_setChannels_eq r channels t⟩

/-- C6: every write issued by SetUsers and SetChannels carries the fixed
6-hour expiration CacheTTL, which is nonzero and independent of the call
arguments. -/
theorem set_ttl_six_hours (r1 r2 : RedisClient) (users : GoSlice User)
    (channels : GoSlice Channel) :
    (r1.SetUsersCmd users).ttl = CacheTTL
    ∧ (r1.SetChannelsCmd channels).ttl = CacheTTL
    ∧ (r1.SetUsersCmd users).ttl = (r2.SetChannelsCmd channels).ttl
    ∧ CacheTTL = 6 * Hour
    ∧ CacheTTL = 21600000000000
    ∧ CacheTTL ≠ 0 :=
  ⟨rfl, rfl, rfl, rfl, by decide, by decide⟩

/-- C7: writing a first collection and then a second one to the same scope
and reading back yields exactly the second collection; the second write fully
replaces the first at that key. -/
theorem overwrite_last_write_wins (r : RedisClient) (u1 u2 : GoSlice User)
    (c1 c2 : GoSlice Channel) (s t : Store) :
    r.GetUsers (r.SetUsers u2 (r.SetUsers u1 s)) = .ok u2
    ∧ r.GetChannels (r.SetChannels c2 (r.SetChannels c1 t)) = .ok c2 :=
  ⟨getUsers_setUsers_eq r u2 (r.SetUsers u1 s),
   getChannels_setChannels_eq r c2 (r.SetChannels c1 t)⟩

/-- C8: for every scope the users entry and the channels entry live under
distinct keys; SetUsers leaves the channels entry unchanged and SetChannels
leaves the users entry unchanged. -/
theorem resource_kinds_independent (r : RedisClient) (users : GoSlice User)
    (channels : GoSlice Channel) (s : Store) :
    r.getSlackKey "users" ≠ r.getSlackKey "channels"
    ∧ r.GetChannels (r.SetUsers users s) = r.GetChannels s
    ∧ r.GetUsers (r.SetChannels channels s) = r.GetUsers s := by
  refine ⟨usersKey_ne_channelsKey r, ?_, ?_⟩
  · have h := Store.find_applySet_ne s (r.SetUsersCmd users)
      (r.getSlackKey "channels") (usersKey_ne_channelsKey r)
    simp [RedisClient.GetChannels, RedisClient.SetUsers, Store.getResp, h]
  · have h := Store.find_applySet_ne s (r.SetChannelsCmd channels)
      (r.getSlackKey "users") (Ne.symm (usersKey_ne_channelsKey r))
    simp [RedisClient.GetUsers, RedisClient.SetChannels, Store.getResp, h]

/-- C4: for every scope whose key the store reports as missing, GetUsers and
GetChannels return the absent outcome, which is not an error and is distinct
from a successfully returned empty collection; absent, empty collection and
error are pairwise distinct values of the result type. -/
theorem miss_is_absent (r : RedisClient) (s : Store) (e : String)
    (hu : Store.find s (r.getSlackKey "users") = none)
    (hc : Store.find s (r.getSlackKey "channels") = none) :
    r.GetUsers s = .ok none
    ∧ r.GetChannels s = .ok none
    ∧ (Except.ok none ≠ (Except.ok (some []) : Except String (GoSlice User)))
    ∧ (Except.ok none ≠ (Except.error e : Except String (GoSlice User)))
    ∧ (Except.ok (some []) ≠ (Except.error e : Except String (GoSlice User))) := by
  refine ⟨?_, ?_, by simp, by simp, by simp⟩
  · simp [RedisClient.GetUsers, Store.getResp, hu, GetUsersFromResp]
  · simp [RedisClient.GetChannels, Store.getResp, hc, GetChannelsFromResp]

/-- Witness for C4: the never-written scope of the unit tests against the
empty store. -/
theorem miss_is_absent_witness :
    Store.find [] (RedisClient.getSlackKey
      { instanceID := "NONEXISTENT", userID := "U999999" } "users") = none
    ∧ RedisClient.GetUsers { instanceID := "NONEXISTENT", userID := "U999999" } []
      = .ok none
    ∧ RedisClient.GetChannels { instanceID := "NONEXISTENT", userID := "U999999" } []
      = .ok none := by
  have h := miss_is_absent { instanceID := "NONEXISTENT", userID := "U999999" }
    [] "boom" rfl rfl
  exact ⟨rfl, h.1, h.2.1⟩

/-- C5: when the key exists but the stored payload fails to decode, or when
the store read fails for any reason other than the missing-key indicator,
Get returns an error and never the absent outcome. -/
theorem decode_or_store_failure_is_error (ju jc : Json) (m : String)
    (hu : decodeUsers ju = none) (hc : decodeChannels jc = none) :
    (∃ e, GetUsersFromResp (.found ju) = .error e)
    ∧ GetUsersFromResp (.found ju) ≠ .ok none
    ∧ (∃ e, GetUsersFromResp (.storeFail m) = .error e)
    ∧ GetUsersFromResp (.storeFail m) ≠ .ok none
    ∧ (∃ e, GetChannelsFromResp (.found jc) = .error e)
    ∧ GetChannelsFromResp (.found jc) ≠ .ok none
    ∧ (∃ e, GetChannelsFromResp (.storeFail m) = .error e)
    ∧ GetChannelsFromResp (.storeFail m) ≠ .ok none := by
  have hu2 : GetUsersFromResp (.found ju) = .error "failed to unmarshal users" := by
    simp [GetUsersFromResp, hu]
  have hc2 : GetChannelsFromResp (.found jc)
      = .error "failed to unmarshal channels" := by
    simp [GetChannelsFromResp, hc]
  exact ⟨⟨_, hu2⟩, by simp [hu2], ⟨_, rfl⟩, by simp [GetUsersFromResp],
    ⟨_, hc2⟩, by simp [hc2], ⟨_, rfl⟩, by simp [GetChannelsFromResp]⟩

/-- Witness for C5: a numeric payload, which is not a valid encoding of
either collection, and a concrete store failure. -/
theorem decode_or_store_failure_is_error_witness :
    decodeUsers (Json.num 7) = none
    ∧ GetUsersFromResp (.found (Json.num 7)) ≠ .ok none
    ∧ GetChannelsFromResp (.storeFail "network timeout") ≠ .ok none := by
  have h := decode_or_store_failure_is_error (Json.num 7) (Json.num 7)
    "network timeout" rfl rfl
  exact ⟨rfl, h.2.1, h.2.2.2.2.2.2.2⟩

/-- C10: on a miss GetUsers and GetChannels return a nil collection and no
error; SetUsers of a nil collection marshals it as the JSON token null,
which decodes back to a nil collection, so reading after writing nil gives
the very same observable result as reading the never-written key. -/
theorem nil_write_indistinguishable_from_miss (r : RedisClient) (s : Store)
    (hu : Store.find s (r.getSlackKey "users") = none)
    (hc : Store.find s (r.getSlackKey "channels") = none) :
    r.GetUsers s = .ok none
    ∧ r.GetChannels s = .ok none
    ∧ encodeUsers none = Json.null
    ∧ decodeUsers Json.null = some none
    ∧ r.GetUsers (r.SetUsers none s) = .ok none
    ∧ r.GetUsers (r.SetUsers none s) = r.GetUsers s := by
  have h1 : r.GetUsers s = .ok none := by
    simp [RedisClient.GetUsers, Store.getResp, hu, GetUsersFromResp]
  have h2 : r.GetChannels s = .ok none := by
    simp [RedisClient.GetChannels, Store.getResp, hc, GetChannelsFromResp]
  have h3 : r.GetUsers (r.SetUsers none s) = .ok none :=
    getUsers_setUsers_eq r none s
  exact ⟨h1, h2, rfl, rfl, h3, by rw [h3, h1]⟩

/-- Witness for C10 at a concrete scope against the empty store. -/
theorem nil_write_indistinguishable_from_miss_witness :
    Store.find [] (RedisClient.getSlackKey
      { instanceID := "TEAM123", userID := "U111111" } "users") = none
    ∧ RedisClient.GetUsers { instanceID := "TEAM123", userID := "U111111" }
        (RedisClient.SetUsers { instanceID := "TEAM123", userID := "U111111" } none [])
      = RedisClient.GetUsers { instanceID := "TEAM123", userID := "U111111" } [] := by
  have h := nil_write_indistinguishable_from_miss
    { instanceID := "TEAM123", userID := "U111111" } [] rfl rfl
  exact ⟨rfl, h.2.2.2.2.2⟩

/-- C9: construction fails when REDIS_DB is present but non-numeric; an
absent REDIS_ADDR defaults to localhost:6379, an absent REDIS_PASSWORD
defaults to the empty credential, and an absent REDIS_DB defaults to
database 0, construction then proceeding to the liveness check (a returned
configuration). -/
theorem newRedisClient_config (env : Env) :
    (env.redisDb ≠ "" → (∃ e, Atoi env.redisDb = .error e) →
      ∃ m, NewRedisClient env = .error m)
    ∧ (env.redisAddr = "" → ∀ cfg, NewRedisClient env = .ok cfg →
        cfg.addr = "localhost:6379")
    ∧ (env.redisPassword = "" → ∀ cfg, NewRedisClient env = .ok cfg →
        cfg.password = "")
    ∧ (env.redisDb = "" → ∃ cfg, NewRedisClient env = .ok cfg ∧ cfg.db = 0)
    ∧ (∀ n, env.redisDb ≠ "" → Atoi env.redisDb = .ok n →
        ∃ cfg, NewRedisClient env = .ok cfg ∧ cfg.db = n) := by
  refine ⟨?_, ?_, ?_, ?_, ?_⟩
  · intro hdb ⟨e, he⟩
    refine ⟨"invalid REDIS_DB value: " ++ e, ?_⟩
    simp [NewRedisClient, hdb, he]
  · intro haddr cfg hcfg
    by_cases hdb : env.redisDb = ""
    · simp [NewRedisClient, hdb, haddr] at hcfg
      rw [← hcfg]
    · cases hatoi : Atoi env.redisDb with
      | error e => simp [NewRedisClient, hdb, hatoi] at hcfg
      | ok db =>
        simp [NewRedisClient, hdb, hatoi, haddr] at hcfg
        rw [← hcfg]
  · intro hpw cfg hcfg
    by_cases hdb : env.redisDb = ""
    · simp [NewRedisClient, hdb] at hcfg
      rw [← hcfg, hpw]
    · cases hatoi : Atoi env.redisDb with
      | error e => simp [NewRedisClient, hdb, hatoi] at hcfg
      | ok db =>
        simp [NewRedisClient, hdb, hatoi] at hcfg
        rw [← hcfg, hpw]
  · intro hdb
    refine ⟨{ addr := if env.redisAddr = "" then "localhost:6379" else env.redisAddr,
              password := env.redisPassword, db := 0 }, ?_, rfl⟩
    simp [NewRedisClient, hdb]
  · intro n hdb hatoi
    refine ⟨{ addr := if env.redisAddr = "" then "localhost:6379" else env.redisAddr,
              password := env.redisPassword, db := n }, ?_, rfl⟩
    simp [NewRedisClient, hdb, hatoi]

/-- Witness for C9: a non-numeric REDIS_DB makes construction fail, and the
all-defaults environment yields the default configuration. -/
theorem newRedisClient_config_witness :
    (∃ m, NewRedisClient { redisAddr := "", redisPassword := "", redisDb := "six" }
      = .error m)
    ∧ (∀ cfg, NewRedisClient { redisAddr := "", redisPassword := "", redisDb := "" }
        = .ok cfg → cfg.addr = "localhost:6379") := by
  refine ⟨?_, ?_⟩
  · exact (newRedisClient_config
      { redisAddr := "", redisPassword := "", redisDb := "six" }).1
      (by decide) ⟨"invalid syntax", rfl⟩
  · exact (newRedisClient_config
      { redisAddr := "", redisPassword := "", redisDb := "" }).2.1 rfl

/-! Key injectivity: splitting a string at a separator character that occurs
in neither left part determines both parts. -/

theorem append_sep_inj {sep : Char} :
    ∀ (a b c d : List Char), sep ∉ a → sep ∉ c →
      a ++ sep :: b = c ++ sep :: d → a = c ∧ b = d
  | [], b, [], d, _, _, h => by
    simp only [List.nil_append] at h
    injection h with h1 h2
    exact ⟨rfl, h2⟩
  | [], b, y :: ys, d, _, hc, h => by
    simp only [List.nil_append, List.cons_append] at h
    injection h with h1 h2
    exact absurd (by rw [h1]; exact List.mem_cons_self y ys) hc
  | x :: xs, b, [], d, ha, _, h => by
    simp only [List.cons_append, List.nil_append] at h
    injection h with h1 h2
    exact absurd (by rw [← h1]; exact List.mem_cons_self x xs) ha
  | x :: xs, b, y :: ys, d, ha, hc, h => by
    simp only [List.cons_append] at h
    injection h with h1 h2
    subst h1
    have ha2 : sep ∉ xs := fun hm => ha (List.mem_cons_of_mem x hm)
    have hc2 : sep ∉ ys := fun hm => hc (List.mem_cons_of_mem x hm)
    obtain ⟨e1, e2⟩ := append_sep_inj xs b ys d ha2 hc2 h2
    exact ⟨by rw [e1], e2⟩

theorem kind_suffix_inj {u1 u2 k1 k2 : List Char}
    (hk1 : k1 = "users".data ∨ k1 = "channels".data)
    (hk2 : k2 = "users".data ∨ k2 = "channels".data)
    (h : u1 ++ ':' :: k1 = u2 ++ ':' :: k2) : u1 = u2 ∧ k1 = k2 := by
  rcases hk1 with h1 | h1 <;> rcases hk2 with h2 | h2 <;> subst h1 <;> subst h2
  · exact ⟨List.append_cancel_right h, rfl⟩
  · exfalso
    have hr := congrArg List.reverse h
    rw [List.reverse_append, List.reverse_append] at hr
    have e1 : (':' :: ("users".data)).reverse = ['s', 'r', 'e', 's', 'u', ':'] := by
      decide
    have e2 : (':' :: ("channels".data)).reverse
        = ['s', 'l', 'e', 'n', 'n', 'a', 'h', 'c', ':'] := by decide
    rw [e1, e2] at hr
    simp only [List.cons_append, List.nil_append] at hr
    injection hr with b1 hr2
    injection hr2 with b2 hr3
    exact absurd b2 (by decide)
  · exfalso
    have hr := congrArg List.reverse h
    rw [List.reverse_append, List.reverse_append] at hr
    have e1 : (':' :: ("users".data)).reverse = ['s', 'r', 'e', 's', 'u', ':'] := by
      decide
    have e2 : (':' :: ("channels".data)).reverse
        = ['s', 'l', 'e', 'n', 'n', 'a', 'h', 'c', ':'] := by decide
    rw [e1, e2] at hr
    simp only [List.cons_append, List.nil_append] at hr
    injection hr with b1 hr2
    injection hr2 with b2 hr3
    exact absurd b2 (by decide)
  · exact ⟨List.append_cancel_right h, rfl⟩

theorem getSlackKey_inj (r1 r2 : RedisClient) (k1 k2 : String)
    (hi1 : '/' ∉ r1.instanceID.data) (hu1 : '/' ∉ r1.userID.data)
    (hi2 : '/' ∉ r2.instanceID.data) (hu2 : '/' ∉ r2.userID.data)
    (hk1 : k1 = "users" ∨ k1 = "channels")
    (hk2 : k2 = "users" ∨ k2 = "channels")
    (h : r1.getSlackKey k1 = r2.getSlackKey k2) : r1 = r2 ∧ k1 = k2 := by
  obtain ⟨i1, u1⟩ := r1
  obtain ⟨i2, u2⟩ := r2
  have hd := congrArg String.data h
  simp only [RedisClient.getSlackKey, String.data_append, List.append_assoc] at hd
  simp only [List.singleton_append] at hd
  have hd2 := List.append_cancel_left hd
  obtain ⟨e1, e2⟩ := append_sep_inj _ _ _ _ hi1 hi2 hd2
  obtain ⟨e3, e4⟩ := kind_suffix_inj
    (hk1.imp (congrArg String.data) (congrArg String.data))
    (hk2.imp (congrArg String.data) (congrArg String.data)) e2
  have q1 : i1 = i2 := String.ext e1
  have q2 : u1 = u2 := String.ext e3
  have q3 : k1 = k2 := String.ext e4
  rw [q1, q2, q3]
  exact ⟨rfl, rfl⟩

/-- Counterexample to C2 as frozen: two distinct scopes whose identifiers
contain a slash derive the very same key, and a users collection written by
one of the two scopes is read back by the other. -/
theorem getSlackKey_not_injective_counterexample :
    RedisClient.getSlackKey { instanceID := "A", userID := "B/C" } "users"
      = RedisClient.getSlackKey { instanceID := "A/B", userID := "C" } "users"
    ∧ ({ instanceID := "A", userID := "B/C" } : RedisClient)
      ≠ { instanceID := "A/B", userID := "C" }
    ∧ RedisClient.GetUsers { instanceID := "A", userID := "B/C" }
        (RedisClient.SetUsers { instanceID := "A/B", userID := "C" }
          (some [{ id := "U1", name := "leak", profile := { realName := "Leak" } }]) [])
      = .ok (some [{ id := "U1", name := "leak", profile := { realName := "Leak" } }]) :=
  ⟨rfl, by decide, rfl⟩

/-- C2 (amended): key derivation is injective for identifiers that contain
no slash character, the separator the key scheme itself uses: for such
scopes the derived keys agree exactly when the scopes and kinds agree, and
two distinct scopes never read or write each other's entry.  Without that
proviso the claim fails, since the slash of the scheme can be forged by the
identifiers. -/
theorem getSlackKey_injective_no_slash (r1 r2 : RedisClient) (k1 k2 : String)
    (hi1 : '/' ∉ r1.instanceID.data) (hu1 : '/' ∉ r1.userID.data)
    (hi2 : '/' ∉ r2.instanceID.data) (hu2 : '/' ∉ r2.userID.data)
    (hk1 : k1 = "users" ∨ k1 = "channels")
    (hk2 : k2 = "users" ∨ k2 = "channels") :
    (r1.getSlackKey k1 = r2.getSlackKey k2 ↔ (r1 = r2 ∧ k1 = k2))
    ∧ (r1 ≠ r2 → ∀ (users : GoSlice User) (s : Store),
        r2.GetUsers (r1.SetUsers users s) = r2.GetUsers s)
    ∧ (r1 ≠ r2 → ∀ (channels : GoSlice Channel) (s : Store),
        r2.GetChannels (r1.SetChannels channels s) = r2.GetChannels s) := by
  refine ⟨⟨fun h => getSlackKey_inj r1 r2 k1 k2 hi1 hu1 hi2 hu2 hk1 hk2 h, ?_⟩,
    ?_, ?_⟩
  · rintro ⟨rfl, rfl⟩
    rfl
  · intro hne users s
    have hkey : (r1.SetUsersCmd users).key ≠ r2.getSlackKey "users" := fun h =>
      hne (getSlackKey_inj r1 r2 "users" "users" hi1 hu1 hi2 hu2
        (Or.inl rfl) (Or.inl rfl) h).1
    have h := Store.find_applySet_ne s (r1.SetUsersCmd users)
      (r2.getSlackKey "users") hkey
    simp [RedisClient.GetUsers, RedisClient.SetUsers, Store.getResp, h]
  · intro hne channels s
    have hkey : (r1.SetChannelsCmd channels).key ≠ r2.getSlackKey "channels" :=
      fun h => hne (getSlackKey_inj r1 r2 "channels" "channels" hi1 hu1 hi2 hu2
        (Or.inr rfl) (Or.inr rfl) h).1
    have h := Store.find_applySet_ne s (r1.SetChannelsCmd channels)
      (r2.getSlackKey "channels") hkey
    simp [RedisClient.GetChannels, RedisClient.SetChannels, Store.getResp, h]

/-- Witness for the amended C2 at the two scopes of the multi-tenant unit
test, whose identifiers contain no slash. -/
theorem getSlackKey_injective_no_slash_witness :
    RedisClient.getSlackKey { instanceID := "TEAM1", userID := "U111111" } "users"
      ≠ RedisClient.getSlackKey { instanceID := "TEAM2", userID := "U222222" } "users" := by
  intro h
  have hinj := (getSlackKey_injective_no_slash
    { instanceID := "TEAM1", userID := "U111111" }
    { instanceID := "TEAM2", userID := "U222222" } "users" "users"
    (by decide) (by decide) (by decide) (by decide)
    (Or.inl rfl) (Or.inl rfl)).1
  exact absurd (hinj.mp h).1 (by decide)

end SlackCache
